import Mathlib

/-!
Shallow embedding of the sqlite-eventbus core (TypeScript) in Lean 4, together
with theorems settling the specification claims about it.

Source files embedded:
- `src/bus/glob.ts` (`matchGlob`)
- `src/dispatcher/index.ts` (`Dispatcher`: circuit breaker, retry-policy merge,
  delay calculation, the dispatch loop's store writes and outcome bookkeeping)
- `src/store/index.ts` (`SQLiteStore`: event rows and the row-update operations)
- `src/bus/index.ts` (`EventBus`: publish/subscribe/shutdown/start)
- `src/dlq/index.ts` (`DLQInspector.retry`)

JS numbers are modelled as exact rationals (`ℚ`) and timestamps as integers
(milliseconds, `ℤ`); `Math.round` is modelled exactly as `⌊x + 1/2⌋`.
-/

/-! ## Pattern matcher (`src/bus/glob.ts`) -/

/-- Split a character list on `'.'`, mirroring JS `String.prototype.split('.')`
(note `"a.".split('.') = ["a", ""]` — a trailing dot yields an empty segment). -/
def splitSeg : List Char → List (List Char)
  | [] => [[]]
  | c :: rest =>
    if c = '.' then [] :: splitSeg rest
    else
      match splitSeg rest with
      | s :: ss => (c :: s) :: ss
      | [] => [[c]]

/-- `pattern.split('.')` / `eventType.split('.')` as used by `matchGlob`. -/
def splitDots (s : String) : List String := (splitSeg s.data).map List.asString

/-- One loop iteration of `matchGlob`: segment `p` of the pattern accepts
segment `e` of the event type (`if (patternSegments[i] === '*') continue;
if (patternSegments[i] !== eventSegments[i]) return false;`). -/
def segMatch (p e : String) : Bool := p = "*" || p = e

/-- `matchGlob` from `src/bus/glob.ts:6-21`: standalone `"*"` matches
everything; otherwise split both on `'.'`, require equal segment counts and
pointwise acceptance. -/
def matchGlob (pattern eventType : String) : Bool :=
  if pattern = "*" then true
  else
    let ps := splitDots pattern
    let es := splitDots eventType
    decide (ps.length = es.length) && (ps.zip es).all fun pe => segMatch pe.1 pe.2

/-- The matcher as the spec's words describe it (§4.1 / claim C4): a `"*"`
pattern segment matches "any single non-empty segment".  This is the one
definition translated from the spec rather than the source; C4 compares the
two. -/
def segMatchSpec (p e : String) : Bool := (p = "*" && !(e = "")) || p = e

/-- Spec-side matcher (claim C4's wording), differing from `matchGlob` only in
using `segMatchSpec`. -/
def matchGlobSpec (pattern eventType : String) : Bool :=
  if pattern = "*" then true
  else
    let ps := splitDots pattern
    let es := splitDots eventType
    decide (ps.length = es.length) && (ps.zip es).all fun pe => segMatchSpec pe.1 pe.2

/-! ## Retry policy (`src/types/index.ts`, `src/dispatcher/index.ts`) -/

/-- `RetryPolicy` from `src/types/index.ts`. -/
structure RetryPolicy where
  maxRetries : ℕ
  baseDelayMs : ℚ
  maxDelayMs : ℚ
  backoffMultiplier : ℚ
deriving Repr, DecidableEq

/-- `DEFAULT_RETRY_POLICY` from `src/types/index.ts`: `{3, 1000, 30000, 2}`. -/
def DEFAULT_RETRY_POLICY : RetryPolicy :=
  { maxRetries := 3, baseDelayMs := 1000, maxDelayMs := 30000, backoffMultiplier := 2 }

/-- `Partial<RetryPolicy>` — a subscription's optional per-field override. -/
structure RetryOverride where
  maxRetries : Option ℕ := none
  baseDelayMs : Option ℚ := none
  maxDelayMs : Option ℚ := none
  backoffMultiplier : Option ℚ := none
deriving Repr, DecidableEq

/-- The spread `{ ...DEFAULT_RETRY_POLICY, ...override }`: overlay a partial
override onto the defaults. -/
def overlay (o : RetryOverride) : RetryPolicy :=
  { maxRetries := o.maxRetries.getD DEFAULT_RETRY_POLICY.maxRetries
    baseDelayMs := o.baseDelayMs.getD DEFAULT_RETRY_POLICY.baseDelayMs
    maxDelayMs := o.maxDelayMs.getD DEFAULT_RETRY_POLICY.maxDelayMs
    backoffMultiplier := o.backoffMultiplier.getD DEFAULT_RETRY_POLICY.backoffMultiplier }

/-- The in-memory `Subscription` fields the dispatcher reads (the handler
itself is modelled separately, as per-attempt outcomes). -/
structure Subscription where
  id : String
  eventType : String
  timeoutMs : Option ℚ := none
  retry : Option RetryOverride := none
deriving Repr, DecidableEq

/-- Field-wise most-permissive combination used inside `mergeRetryPolicies`:
`max` / `min` / `max` / `max`. -/
def combinePolicies (a b : RetryPolicy) : RetryPolicy :=
  { maxRetries := max a.maxRetries b.maxRetries
    baseDelayMs := min a.baseDelayMs b.baseDelayMs
    maxDelayMs := max a.maxDelayMs b.maxDelayMs
    backoffMultiplier := max a.backoffMultiplier b.backoffMultiplier }

/-- `Dispatcher.mergeRetryPolicies` (`src/dispatcher/index.ts:282-300`): keep
the subscriptions that carry an override; with none, the defaults; otherwise
overlay each onto the defaults and fold with the most-permissive operator,
starting from the first. -/
def mergeRetryPolicies (subs : List Subscription) : RetryPolicy :=
  match subs.filterMap Subscription.retry with
  | [] => DEFAULT_RETRY_POLICY
  | o :: rest => rest.foldl (fun acc p => combinePolicies acc (overlay p)) (overlay o)

/-! ## Delay calculation (`Dispatcher.calculateDelay`, `src/dispatcher/index.ts:307-319`) -/

/-- JS `Math.round x = ⌊x + 1/2⌋` (round half up). -/
def jsRound (x : ℚ) : ℤ := Int.floor (x + 1/2)

/-- `Dispatcher.calculateDelay`.  `rand` is the `Math.random()` draw, a value
in `[0, 1)`.  `exponent = attempt - 2` (an integer: `Math.pow` accepts a
negative exponent), `raw = min(base · mult^exponent, maxDelay)`,
`jitter = raw · 0.1 · (2·rand − 1)`, result `max 0 (round (raw + jitter))`. -/
def calculateDelay (attempt : ℕ) (policy : RetryPolicy) (rand : ℚ) : ℤ :=
  let exponent : ℤ := (attempt : ℤ) - 2
  let rawDelay := min (policy.baseDelayMs * policy.backoffMultiplier ^ exponent) policy.maxDelayMs
  let jitter := rawDelay * (1/10) * (2 * rand - 1)
  max 0 (jsRound (rawDelay + jitter))

/-- The wait the dispatch loop actually performs before an attempt
(`src/dispatcher/index.ts:165-171`): nothing before attempt 1, else
`calculateDelay`. -/
def effectiveDelay (attempt : ℕ) (policy : RetryPolicy) (rand : ℚ) : ℤ :=
  if attempt > 1 then calculateDelay attempt policy rand else 0

/-! ## Circuit breaker (`src/dispatcher/index.ts:37-130`) -/

/-- Constants from `src/dispatcher/index.ts:7-10`. -/
def CIRCUIT_BREAKER_WINDOW_MS : ℤ := 60000

def CIRCUIT_BREAKER_MIN_SAMPLES : ℕ := 4

def CIRCUIT_BREAKER_PAUSE_MS : ℤ := 30000

/-- One `{ timestamp, success }` entry of a circuit's rolling window. -/
structure Outcome where
  timestamp : ℤ
  success : Bool
deriving Repr, DecidableEq

/-- The three circuit states (`'closed' | 'open' | 'half-open'`; `opened`
stands for the source's `'open'`, a Lean keyword). -/
inductive CircuitState
  | closed
  | opened
  | halfOpen
deriving Repr, DecidableEq

/-- `CircuitBreakerState` from `src/dispatcher/index.ts:37-42`. -/
structure CircuitBreakerState where
  outcomes : List Outcome
  state : CircuitState
  openedAt : ℤ
  probeInFlight : Bool
deriving Repr, DecidableEq

/-- The fresh state `getCircuitBreaker` creates for an unseen subscription. -/
def freshCircuit : CircuitBreakerState :=
  { outcomes := [], state := .closed, openedAt := 0, probeInFlight := false }

/-- Number of failure entries in a window (`outcomes.filter(o => !o.success).length`). -/
def failureCount (l : List Outcome) : ℕ := (l.filter fun o => !o.success).length

/-- The trip test of `recordOutcome` (`src/dispatcher/index.ts:101-109`):
at least `CIRCUIT_BREAKER_MIN_SAMPLES` samples and
`failures / length > CIRCUIT_BREAKER_FAILURE_THRESHOLD` (the division taken
in `ℚ`, as JS takes it on numbers). -/
def shouldTrip (l : List Outcome) : Bool :=
  decide (CIRCUIT_BREAKER_MIN_SAMPLES ≤ l.length) &&
  decide ((1 : ℚ)/2 < (failureCount l : ℚ) / (l.length : ℚ))

/-- `Dispatcher.recordOutcome` (`src/dispatcher/index.ts:79-110`) acting on a
single circuit: push `(now, success)`, prune entries at or before
`now − 60000`; in `half-open` resolve the probe (success → `closed` with
cleared outcomes, failure → `opened` with `openedAt = now`), otherwise trip to
`opened` when `shouldTrip`. -/
def recordOutcome (cb : CircuitBreakerState) (now : ℤ) (success : Bool) : CircuitBreakerState :=
  let pruned := (cb.outcomes ++ [Outcome.mk now success]).filter fun o =>
    now - CIRCUIT_BREAKER_WINDOW_MS < o.timestamp
  if cb.state = .halfOpen then
    if success then
      { outcomes := [], state := .closed, openedAt := cb.openedAt, probeInFlight := false }
    else
      { outcomes := pruned, state := .opened, openedAt := now, probeInFlight := false }
  else
    if shouldTrip pruned then
      { outcomes := pruned, state := .opened, openedAt := now, probeInFlight := cb.probeInFlight }
    else
      { cb with outcomes := pruned }

/-- `Dispatcher.isCircuitOpen` (`src/dispatcher/index.ts:112-130`) acting on a
single circuit.  Returns `(blocked, updated circuit)`: `closed` admits;
`opened` admits as half-open probe once the pause has elapsed; `half-open`
denies while `probeInFlight` and otherwise admits, setting the flag. -/
def isCircuitOpenCB (cb : CircuitBreakerState) (now : ℤ) : Bool × CircuitBreakerState :=
  match cb.state with
  | .closed => (false, cb)
  | .opened =>
    if CIRCUIT_BREAKER_PAUSE_MS ≤ now - cb.openedAt then
      (false, { cb with state := .halfOpen, probeInFlight := true })
    else
      (true, cb)
  | .halfOpen =>
    if cb.probeInFlight then (true, cb)
    else (false, { cb with probeInFlight := true })

/-- The dispatcher's `circuitBreakers` map, total with `freshCircuit` default
(`getCircuitBreaker` creates missing entries). -/
def CircuitMap : Type := String → CircuitBreakerState

/-- `recordOutcome(subId, success)` at map level. -/
def recordOutcomeMap (m : CircuitMap) (subId : String) (now : ℤ) (success : Bool) : CircuitMap :=
  fun s => if s = subId then recordOutcome (m subId) now success else m s

/-- One iteration of the leak-clearance loop (`src/dispatcher/index.ts:200-208`):
for a matching subscription that was never executed this attempt, clear a
dangling `probeInFlight` on a half-open circuit. -/
def leakClear (m : CircuitMap) (executed : List String) (subId : String) : CircuitMap :=
  if subId ∈ executed then m
  else fun s =>
    if s = subId then
      let cb := m subId
      if cb.state = .halfOpen ∧ cb.probeInFlight then { cb with probeInFlight := false }
      else cb
    else m s

/-- The circuit bookkeeping `dispatch` performs after a **failed** attempt
(`src/dispatcher/index.ts:189-208`): success outcomes for the subscriptions
that completed earlier in the attempt, a failure outcome for the failed one,
then leak-clearance over all matching subscriptions. -/
def afterFailedAttempt (m : CircuitMap) (now : ℤ) (matching succeeded : List String)
    (failed : String) : CircuitMap :=
  let m1 := succeeded.foldl (fun acc subId => recordOutcomeMap acc subId now true) m
  let m2 := recordOutcomeMap m1 failed now false
  matching.foldl (fun acc subId => leakClear acc (succeeded ++ [failed]) subId) m2

/-- The circuit bookkeeping `dispatch` performs after a **successful** attempt
(`src/dispatcher/index.ts:175-179`): a success outcome for every matching
subscription. -/
def afterSuccessAttempt (m : CircuitMap) (now : ℤ) (matching : List String) : CircuitMap :=
  matching.foldl (fun acc subId => recordOutcomeMap acc subId now true) m

/-! ## Durable event rows and store writes (`src/store/index.ts`) -/

/-- The four event statuses (`src/types/index.ts`). -/
inductive Status
  | pending
  | processing
  | done
  | dlq
deriving Repr, DecidableEq

/-- A row of the `events` table (`src/store/index.ts:5-16`).  `lastError`
holds the decoded JSON array of per-attempt error messages (`none` for SQL
`NULL`); `payload`/`metadata` hold the stored JSON text. -/
structure EventRow where
  id : String
  type : String
  payload : String
  status : Status
  retryCount : ℕ
  lastError : Option (List String)
  metadata : Option String
  createdAt : ℤ
  updatedAt : ℤ
  dlqAt : Option ℤ
deriving Repr, DecidableEq

/-- The store mutations the dispatch pipeline issues for one event:
`updateEventStatus`, `updateEventRetry`, `moveEventToDlq`
(`src/store/index.ts:138-156`). -/
inductive StoreWrite
  | setStatus (status : Status)
  | setRetry (retryCount : ℕ) (errorHistory : List String)
  | moveToDlq (errorHistory : List String)
deriving Repr, DecidableEq

/-- Apply one store write to an event row, per the three UPDATE statements of
`src/store/index.ts:138-156` (each also stamps `updated_at`). -/
def applyWrite (row : EventRow) (now : ℤ) : StoreWrite → EventRow
  | .setStatus s => { row with status := s, updatedAt := now }
  | .setRetry n errs => { row with retryCount := n, lastError := some errs, updatedAt := now }
  | .moveToDlq errs =>
    { row with status := .dlq, lastError := some errs, dlqAt := some now, updatedAt := now }

/-- Apply a sequence of store writes to a row. -/
def applyWrites (row : EventRow) (now : ℤ) (ws : List StoreWrite) : EventRow :=
  ws.foldl (fun r w => applyWrite r now w) row

/-! ## The dispatch loop's store-write trace (`Dispatcher.dispatch`,
`src/dispatcher/index.ts:136-235`) -/

/-- What `runHandlers` reports for one attempt: every admitted handler
succeeded, or the first failure's error message. -/
inductive AttemptResult
  | allSucceeded
  | failedAt (error : String)
deriving Repr, DecidableEq

/-- The store writes of the attempt loop (`src/dispatcher/index.ts:165-234`),
driven by the per-attempt results (one entry per remaining attempt; the list's
length is `maxAttempts`).  On success: flush the accumulated error history if
non-empty (`updateEventRetry(errorHistory.length, …)`), then status `done`.
On failure: push the message and write
`updateEventRetry(attempt, errorHistory)`.  On exhaustion: `moveEventToDlq`. -/
def dispatchLoop : List AttemptResult → ℕ → List String → List StoreWrite
  | [], _, errorHistory => [.moveToDlq errorHistory]
  | .allSucceeded :: _, _, errorHistory =>
    (if errorHistory.length > 0 then [.setRetry errorHistory.length errorHistory] else []) ++
      [.setStatus .done]
  | .failedAt err :: rest, attempt, errorHistory =>
    let eh := errorHistory ++ [err]
    .setRetry attempt eh :: dispatchLoop rest (attempt + 1) eh

/-- The full store-write trace of `dispatch` for one event
(`src/dispatcher/index.ts:136-235`).  `anyAdmitted` says whether any matching
subscription survived the circuit filter: with none, a single transition to
`done`; otherwise a transition to `processing` followed by the attempt loop
(starting at `attempt = 1` with an empty error history). -/
def dispatchWrites (anyAdmitted : Bool) (results : List AttemptResult) : List StoreWrite :=
  if anyAdmitted then .setStatus .processing :: dispatchLoop results 1 []
  else [.setStatus .done]

/-- The recovery writes `EventBus.start` issues per stuck event
(`src/bus/index.ts:150-170`): `updateEventRetry(retry_count + 1,
last_error ?? '')` (the history itself unchanged; `''` for a `NULL` history is
modelled as the empty history), then `updateEventStatus('pending')`. -/
def startRecoveryWrites (row : EventRow) : List StoreWrite :=
  [.setRetry (row.retryCount + 1) (row.lastError.getD []), .setStatus .pending]

/-! ## Status transition edges -/

/-- The durable status a write makes observable, if any. -/
def statusOfWrite : StoreWrite → Option Status
  | .setStatus s => some s
  | .setRetry _ _ => none
  | .moveToDlq _ => some .dlq

/-- The successive statuses a write sequence drives an event through. -/
def statusTrace (ws : List StoreWrite) : List Status := ws.filterMap statusOfWrite

/-- The transition DAG exactly as claim C1 states it:
`pending → processing → done`, `processing → dlq`, `dlq → pending`. -/
def claimedEdge : Status → Status → Bool
  | .pending, .processing => true
  | .processing, .done => true
  | .processing, .dlq => true
  | .dlq, .pending => true
  | _, _ => false

/-- The transition relation the code actually maintains: the claimed DAG plus
`pending → done` (an event with no admitted matching subscription completes
directly, `src/dispatcher/index.ts:147-150`) and `processing → pending`
(crash-recovery reset, `src/bus/index.ts:157`). -/
def actualEdge : Status → Status → Bool
  | .pending, .done => true
  | .processing, .pending => true
  | a, b => claimedEdge a b

/-- Every consecutive pair along `start :: trace` lies in `edge`. -/
def chainOk (edge : Status → Status → Bool) : Status → List Status → Bool
  | _, [] => true
  | s, b :: t => edge s b && chainOk edge b t

/-! ## JSON payload serialization (`JSON.stringify` as used by
`SQLiteStore.insertEvent`, `src/store/index.ts:111-132`) -/

/-- A JS value handed to `publish` as payload.  `bigintVal` and `circular`
stand for the values on which `JSON.stringify` throws a `TypeError` (BigInt
values and circular object graphs). -/
inductive JsValue
  | str (s : String)
  | num (q : ℚ)
  | boolean (b : Bool)
  | jsNull
  | arr (xs : List JsValue)
  | bigintVal (z : ℤ)
  | circular
deriving Repr

mutual

/-- `JSON.stringify`, `none` when it throws (BigInt or circular input,
possibly nested). -/
def jsonStringify : JsValue → Option String
  | .str s => some ("\"" ++ s ++ "\"")
  | .num q => some (toString q)
  | .boolean b => some (if b then "true" else "false")
  | .jsNull => some "null"
  | .bigintVal _ => none
  | .circular => none
  | .arr xs =>
    match jsonStringifyList xs with
    | some parts => some ("[" ++ String.intercalate "," parts ++ "]")
    | none => none

/-- `JSON.stringify` element-wise over an array, `none` as soon as one element
throws. -/
def jsonStringifyList : List JsValue → Option (List String)
  | [] => some []
  | x :: t =>
    match jsonStringify x, jsonStringifyList t with
    | some s, some rest => some (s :: rest)
    | _, _ => none

end

/-- The payload text `insertEvent` binds (`src/store/index.ts:112-114`):
a payload that is already a string is stored as is, anything else goes through
`JSON.stringify`. -/
def payloadJson : JsValue → Option String
  | .str s => some s
  | p => jsonStringify p

/-! ## Store and bus state (`src/store/index.ts`, `src/bus/index.ts`) -/

/-- A row of the `subscriptions` table (`src/store/index.ts:18-22`). -/
structure SubscriptionRow where
  id : String
  eventType : String
  createdAt : ℤ
deriving Repr, DecidableEq

/-- The durable store: the two tables plus the closed flag. -/
structure StoreState where
  events : List EventRow
  subscriptionRows : List SubscriptionRow
  closed : Bool
deriving Repr, DecidableEq

/-- The error kinds surfaced at the bus/DLQ boundary.  `invalidPayload` is the
spec's behavior-name for the `TypeError` that `JSON.stringify` raises inside
`insertEvent`; `shuttingDown` is `EventBusShutdownError`; `notFound` and
`notInDlq` are `DLQInspector.retry`'s two errors. -/
inductive BusError
  | shuttingDown
  | invalidPayload
  | notFound
  | notInDlq
deriving Repr, DecidableEq

/-- `SQLiteStore.insertEvent` (`src/store/index.ts:111-132`) as called by
`publish`: serialize the payload first (a throw leaves the table untouched),
then append the row with the given id/type/status/retryCount and a `NULL`
`last_error` / `dlq_at`. -/
def insertEvent (st : StoreState) (id eventType : String) (payload : JsValue)
    (metadata : Option String) (now : ℤ) : Except BusError StoreState :=
  match payloadJson payload with
  | none => .error .invalidPayload
  | some pj =>
    .ok { st with events := st.events ++
      [{ id := id, type := eventType, payload := pj, status := .pending, retryCount := 0,
         lastError := none, metadata := metadata, createdAt := now, updatedAt := now,
         dlqAt := none }] }

/-- `SQLiteStore.updateEventStatus` (`src/store/index.ts:138-142`):
`UPDATE events SET status = ?, updated_at = ? WHERE id = ?`. -/
def updateEventStatus (table : List EventRow) (id : String) (status : Status)
    (now : ℤ) : List EventRow :=
  table.map fun row =>
    if row.id = id then { row with status := status, updatedAt := now } else row

/-- `SQLiteStore.resetDlqEvent` (`src/store/index.ts:176-180`):
status → `pending`, `retry_count → 0`, `last_error → NULL`, `dlq_at → NULL`. -/
def resetDlqEvent (table : List EventRow) (id : String) (now : ℤ) : List EventRow :=
  table.map fun row =>
    if row.id = id then
      { row with
        status := .pending
        retryCount := 0
        lastError := none
        dlqAt := none
        updatedAt := now }
    else row

/-- `DLQInspector.retry` (`src/dlq/index.ts:30-39`): `NotFound` on an unknown
id, `NotInDlq` unless the row's status is `dlq`, else `resetDlqEvent`. -/
def dlqRetry (table : List EventRow) (id : String) (now : ℤ) :
    Except BusError (List EventRow) :=
  match table.find? (fun row => row.id = id) with
  | none => .error .notFound
  | some row =>
    if row.status = .dlq then .ok (resetDlqEvent table id now)
    else .error .notInDlq

/-- The in-memory bus state (`src/bus/index.ts:20-26`): the store, the
handler registry in registration order, and the drain flag. -/
structure BusState where
  store : StoreState
  handlers : List Subscription
  shuttingDown : Bool
deriving Repr, DecidableEq

/-- The persistence prefix of `EventBus.publish` (`src/bus/index.ts:86-101`):
throw `EventBusShutdownError` when draining, else insert the event row with
`status = 'pending'`, `retryCount = 0`.  Returns the outcome together with the
resulting bus state (on an error the state is whatever had been mutated before
the throw — here, nothing).  On success the event is then handed to
`Dispatcher.dispatch`, whose store writes `dispatchWrites` models. -/
def publishPersist (bus : BusState) (id eventType : String) (payload : JsValue)
    (metadata : Option String) (now : ℤ) : Except BusError String × BusState :=
  if bus.shuttingDown then (.error .shuttingDown, bus)
  else
    match insertEvent bus.store id eventType payload metadata now with
    | .error e => (.error e, bus)
    | .ok st => (.ok id, { bus with store := st })

/-- `EventBus.subscribe` (`src/bus/index.ts:35-77`): throw
`EventBusShutdownError` when draining, else write the subscription row and
install the handler entry.  `eventType = none` models the handler-only
overload, treated as `"*"`. -/
def subscribeModel (bus : BusState) (id : String) (eventType : Option String)
    (timeoutMs : Option ℚ) (retry : Option RetryOverride) (now : ℤ) :
    Except BusError String × BusState :=
  if bus.shuttingDown then (.error .shuttingDown, bus)
  else
    let et := eventType.getD "*"
    let row : SubscriptionRow := { id := id, eventType := et, createdAt := now }
    let sub : Subscription := { id := id, eventType := et, timeoutMs := timeoutMs, retry := retry }
    let st := { bus.store with subscriptionRows := bus.store.subscriptionRows ++ [row] }
    (.ok id, { bus with store := st, handlers := bus.handlers ++ [sub] })

/-- `EventBus.shutdown` (`src/bus/index.ts:128-142`): set the drain flag
(first statement — every later `publish`/`subscribe` sees it), await the
in-flight dispatches (not modelled: pure state), close the store. -/
def shutdownModel (bus : BusState) : BusState :=
  { bus with shuttingDown := true, store := { bus.store with closed := true } }

/-! ## Claim C4 — pattern matcher -/

/-- Claim C4 is false as stated: a `"*"` pattern segment in the code matches
an **empty** type segment.  `matchGlob "a.*" "a."` splits the event type into
`["a", ""]` and accepts, while the claim's characterization (`matchGlobSpec`,
whose `"*"` only matches non-empty segments) rejects. -/
theorem matchGlob_star_empty_segment_counterexample :
    matchGlob "a.*" "a." = true ∧ matchGlobSpec "a.*" "a." = false ∧
    matchGlob "a.*" "a." ≠ matchGlobSpec "a.*" "a." := by decide

/-- Claim C4 (amended): `matchGlob p t` returns true iff either `p` is exactly
`"*"`, or `p` and `t` split on `'.'` into the same number of segments and
every pattern segment either is `"*"` — matching **any** single type segment,
empty ones included — or equals the corresponding type segment literally. -/
theorem matchGlob_pointwise (p t : String) :
    matchGlob p t = true ↔
      p = "*" ∨
      ((splitDots p).length = (splitDots t).length ∧
        ∀ (i : ℕ) (h1 : i < (splitDots p).length) (h2 : i < (splitDots t).length),
          (splitDots p).get ⟨i, h1⟩ = "*" ∨
          (splitDots p).get ⟨i, h1⟩ = (splitDots t).get ⟨i, h2⟩) := by
  by_cases hp : p = "*"
  · simp [matchGlob, hp]
  · simp only [matchGlob, hp, if_false, Bool.and_eq_true, decide_eq_true_iff, List.all_eq_true]
    constructor
    · rintro ⟨hlen, hall⟩
      refine Or.inr ⟨hlen, fun i h1 h2 => ?_⟩
      have hzl : i < ((splitDots p).zip (splitDots t)).length := by
        simpa [List.length_zip] using And.intro h1 h2
      have hmem : ((splitDots p).zip (splitDots t)).get ⟨i, hzl⟩ ∈ (splitDots p).zip (splitDots t) :=
        List.get_mem _ _ _
      have hsm := hall _ hmem
      rw [List.get_eq_getElem, List.getElem_zip] at hsm
      simpa [segMatch, decide_eq_true_iff, List.get_eq_getElem] using hsm
    · rintro (h | ⟨hlen, hpt⟩)
      · exact h.elim
      · refine ⟨hlen, fun pe hpe => ?_⟩
        obtain ⟨⟨i, hi⟩, hget⟩ := List.get_of_mem hpe
        have h1 : i < (splitDots p).length := by
          have := hi; simp [List.length_zip] at this; omega
        have h2 : i < (splitDots t).length := by
          have := hi; simp [List.length_zip] at this; omega
        rw [List.get_eq_getElem, List.getElem_zip] at hget
        subst hget
        simpa [segMatch, decide_eq_true_iff, List.get_eq_getElem] using hpt i h1 h2

/-! ## Claim C7 — most-permissive policy merge -/

/-- `a` is field-wise at least as permissive as `b`: larger retry budget,
delays cap and multiplier, smaller base delay. -/
def MorePermissive (a b : RetryPolicy) : Prop :=
  b.maxRetries ≤ a.maxRetries ∧ a.baseDelayMs ≤ b.baseDelayMs ∧
  b.maxDelayMs ≤ a.maxDelayMs ∧ b.backoffMultiplier ≤ a.backoffMultiplier

theorem morePermissive_refl (a : RetryPolicy) : MorePermissive a a :=
  ⟨le_refl _, le_refl _, le_refl _, le_refl _⟩

theorem morePermissive_trans {a b c : RetryPolicy} (hab : MorePermissive a b)
    (hbc : MorePermissive b c) : MorePermissive a c :=
  ⟨le_trans hbc.1 hab.1, le_trans hab.2.1 hbc.2.1,
   le_trans hbc.2.2.1 hab.2.2.1, le_trans hbc.2.2.2 hab.2.2.2⟩

theorem combinePolicies_left (a b : RetryPolicy) : MorePermissive (combinePolicies a b) a :=
  ⟨le_max_left _ _, min_le_left _ _, le_max_left _ _, le_max_left _ _⟩

theorem combinePolicies_right (a b : RetryPolicy) : MorePermissive (combinePolicies a b) b :=
  ⟨le_max_right _ _, min_le_right _ _, le_max_right _ _, le_max_right _ _⟩

/-- The merge fold is at least as permissive as its starting accumulator. -/
theorem mergeFold_init (l : List RetryOverride) :
    ∀ init : RetryPolicy,
      MorePermissive (l.foldl (fun acc p => combinePolicies acc (overlay p)) init) init := by
  induction l with
  | nil => exact fun init => morePermissive_refl init
  | cons p rest ih =>
    intro init
    exact morePermissive_trans (ih (combinePolicies init (overlay p)))
      (combinePolicies_left init (overlay p))

/-- The merge fold is at least as permissive as the overlay of every list
member. -/
theorem mergeFold_mem (l : List RetryOverride) :
    ∀ (init : RetryPolicy) (p : RetryOverride), p ∈ l →
      MorePermissive (l.foldl (fun acc q => combinePolicies acc (overlay q)) init) (overlay p) := by
  induction l with
  | nil => intro _ _ h; exact absurd h (List.not_mem_nil _)
  | cons q rest ih =>
    intro init p hp
    rcases List.mem_cons.mp hp with h | h
    · subst h
      exact morePermissive_trans (mergeFold_init rest (combinePolicies init (overlay p)))
        (combinePolicies_right init (overlay p))
    · exact ih (combinePolicies init (overlay q)) p h

/-- Claim C7: for every list of matching subscriptions and every subscription
among them that carries a retry override, the merged effective policy is
field-wise at least as permissive as that override overlaid onto the defaults:
`max_retries`, `max_delay` and `backoff_multiplier` at least the override's,
`base_delay` at most the override's. -/
theorem mergeRetryPolicies_most_permissive (subs : List Subscription)
    (s : Subscription) (o : RetryOverride) (hs : s ∈ subs) (ho : s.retry = some o) :
    (overlay o).maxRetries ≤ (mergeRetryPolicies subs).maxRetries ∧
    (mergeRetryPolicies subs).baseDelayMs ≤ (overlay o).baseDelayMs ∧
    (overlay o).maxDelayMs ≤ (mergeRetryPolicies subs).maxDelayMs ∧
    (overlay o).backoffMultiplier ≤ (mergeRetryPolicies subs).backoffMultiplier := by
  have hmem : o ∈ subs.filterMap Subscription.retry :=
    List.mem_filterMap.mpr ⟨s, hs, ho⟩
  unfold mergeRetryPolicies
  rcases hl : subs.filterMap Subscription.retry with _ | ⟨q, rest⟩
  · rw [hl] at hmem; exact absurd hmem (List.not_mem_nil _)
  · rw [hl] at hmem
    rcases List.mem_cons.mp hmem with h | h
    · subst h
      exact mergeFold_init rest (overlay o)
    · exact mergeFold_mem rest (overlay q) o h

/-- Witness for C7 at a concrete input: two subscriptions on `order.*` /
`order.created`, one overriding `max_retries` to 5 and `base_delay` to 500. -/
theorem mergeRetryPolicies_most_permissive_witness :
    (overlay { maxRetries := some 5, baseDelayMs := some 500 }).maxRetries ≤
      (mergeRetryPolicies
        [{ id := "s1", eventType := "order.*" },
         { id := "s2", eventType := "order.created",
           retry := some { maxRetries := some 5, baseDelayMs := some 500 } }]).maxRetries ∧
    (mergeRetryPolicies
        [{ id := "s1", eventType := "order.*" },
         { id := "s2", eventType := "order.created",
           retry := some { maxRetries := some 5, baseDelayMs := some 500 } }]).baseDelayMs ≤
      (overlay { maxRetries := some 5, baseDelayMs := some 500 }).baseDelayMs ∧
    (overlay { maxRetries := some 5, baseDelayMs := some 500 }).maxDelayMs ≤
      (mergeRetryPolicies
        [{ id := "s1", eventType := "order.*" },
         { id := "s2", eventType := "order.created",
           retry := some { maxRetries := some 5, baseDelayMs := some 500 } }]).maxDelayMs ∧
    (overlay { maxRetries := some 5, baseDelayMs := some 500 }).backoffMultiplier ≤
      (mergeRetryPolicies
        [{ id := "s1", eventType := "order.*" },
         { id := "s2", eventType := "order.created",
           retry := some { maxRetries := some 5, baseDelayMs := some 500 } }]).backoffMultiplier :=
  mergeRetryPolicies_most_permissive _
    { id := "s2", eventType := "order.created",
      retry := some { maxRetries := some 5, baseDelayMs := some 500 } }
    { maxRetries := some 5, baseDelayMs := some 500 }
    (by decide) rfl

/-! ## Claim C10 — `updateEventStatus` frame property -/

/-- Claim C10: `updateEventStatus id status` keeps the table's length, leaves
every row with a different id exactly as it was, and on the row with the
target id changes only the `status` and `updated_at` columns, preserving
`type`, `payload`, `retry_count`, `last_error`, `metadata`, `created_at` and
`dlq_at` (and the id itself). -/
theorem updateEventStatus_frame (table : List EventRow) (id : String)
    (status : Status) (now : ℤ) :
    (updateEventStatus table id status now).length = table.length ∧
    ∀ (i : ℕ) (h1 : i < table.length)
      (h2 : i < (updateEventStatus table id status now).length),
      let r := table.get ⟨i, h1⟩
      let r' := (updateEventStatus table id status now).get ⟨i, h2⟩
      r'.id = r.id ∧ r'.type = r.type ∧ r'.payload = r.payload ∧
      r'.retryCount = r.retryCount ∧ r'.lastError = r.lastError ∧
      r'.metadata = r.metadata ∧ r'.createdAt = r.createdAt ∧ r'.dlqAt = r.dlqAt ∧
      (r.id ≠ id → r' = r) ∧
      (r.id = id → r'.status = status ∧ r'.updatedAt = now) := by
  refine ⟨by simp [updateEventStatus], fun i h1 h2 => ?_⟩
  simp only [updateEventStatus, List.get_eq_getElem, List.getElem_map]
  by_cases hid : table[i].id = id
  · simp [hid]
  · simp [hid]

/-- Witness for C10 at a concrete two-row table. -/
theorem updateEventStatus_frame_witness :
    (updateEventStatus
      [{ id := "a", type := "t", payload := "1", status := .pending, retryCount := 0,
         lastError := none, metadata := none, createdAt := 0, updatedAt := 0, dlqAt := none },
       { id := "b", type := "u", payload := "2", status := .dlq, retryCount := 4,
         lastError := some ["x"], metadata := none, createdAt := 1, updatedAt := 2,
         dlqAt := some 2 }] "a" .processing 9).length = 2 ∧
    (updateEventStatus
      [{ id := "a", type := "t", payload := "1", status := .pending, retryCount := 0,
         lastError := none, metadata := none, createdAt := 0, updatedAt := 0, dlqAt := none },
       { id := "b", type := "u", payload := "2", status := .dlq, retryCount := 4,
         lastError := some ["x"], metadata := none, createdAt := 1, updatedAt := 2,
         dlqAt := some 2 }] "a" .processing 9) =
      [{ id := "a", type := "t", payload := "1", status := .processing, retryCount := 0,
         lastError := none, metadata := none, createdAt := 0, updatedAt := 9, dlqAt := none },
       { id := "b", type := "u", payload := "2", status := .dlq, retryCount := 4,
         lastError := some ["x"], metadata := none, createdAt := 1, updatedAt := 2,
         dlqAt := some 2 }] :=
  ⟨(updateEventStatus_frame
      [{ id := "a", type := "t", payload := "1", status := .pending, retryCount := 0,
         lastError := none, metadata := none, createdAt := 0, updatedAt := 0, dlqAt := none },
       { id := "b", type := "u", payload := "2", status := .dlq, retryCount := 4,
         lastError := some ["x"], metadata := none, createdAt := 1, updatedAt := 2,
         dlqAt := some 2 }] "a" .processing 9).1, by decide⟩

/-! ## Claim C3 — backoff delay bounds -/

/-- Claim C3 is false as stated: with `base_delay = 19`, `multiplier = 2`,
`max_delay = 1000`, upcoming attempt 2 and the (legal) jitter draw
`Math.random() = 0`, the code computes `round(19 − 1.9) = round(17.1) = 17`,
which is **below** the claimed lower bound `(1 − 0.1) · 19 = 17.1` — the
rounding step escapes the exact ±10 % band. -/
theorem calculateDelay_band_counterexample :
    calculateDelay 2 (RetryPolicy.mk 3 19 1000 2) 0 = 17 ∧
    ¬ ((1 - 1/10 : ℚ) * min ((19 : ℚ) * 2 ^ ((2 : ℤ) - 2)) 1000 ≤
        ((calculateDelay 2 (RetryPolicy.mk 3 19 1000 2) 0 : ℤ) : ℚ)) := by
  constructor
  · norm_num [calculateDelay, jsRound]
  · norm_num [calculateDelay, jsRound]

/-- Claim C3 (amended): `delay(1) = 0` (the loop sleeps only before retry
attempts), and for every upcoming attempt `a ≥ 2` and every jitter draw
`rand ∈ [0, 1)` the computed delay lies within the ±10 % band around
`raw = min(base · mult^(a−2), max)` **widened by the half-unit the final
rounding can add or remove**:
`(1−0.1)·raw − 1/2 ≤ delay(a) ≤ (1+0.1)·raw + 1/2`. -/
theorem calculateDelay_bounds (policy : RetryPolicy) (attempt : ℕ) (rand : ℚ)
    (ha : 2 ≤ attempt) (hb : 0 ≤ policy.baseDelayMs) (hm : 0 ≤ policy.backoffMultiplier)
    (hx : 0 ≤ policy.maxDelayMs) (hr0 : 0 ≤ rand) (hr1 : rand < 1) :
    effectiveDelay 1 policy rand = 0 ∧
    (1 - 1/10 : ℚ) * min (policy.baseDelayMs * policy.backoffMultiplier ^ ((attempt : ℤ) - 2))
        policy.maxDelayMs - 1/2 ≤ (calculateDelay attempt policy rand : ℚ) ∧
    (calculateDelay attempt policy rand : ℚ) ≤
      (1 + 1/10 : ℚ) * min (policy.baseDelayMs * policy.backoffMultiplier ^ ((attempt : ℤ) - 2))
        policy.maxDelayMs + 1/2 := by
  refine ⟨rfl, ?_⟩
  clear ha
  set raw := min (policy.baseDelayMs * policy.backoffMultiplier ^ ((attempt : ℤ) - 2))
    policy.maxDelayMs with hraw
  have hraw0 : 0 ≤ raw := le_min (mul_nonneg hb (zpow_nonneg hm _)) hx
  set j := raw * (1/10) * (2 * rand - 1) with hj
  have hjlo : -(raw * (1/10)) ≤ j := by
    rw [hj]
    have h1 : (-1 : ℚ) ≤ 2 * rand - 1 := by linarith
    nlinarith
  have hjhi : j ≤ raw * (1/10) := by
    rw [hj]
    have h1 : (2 * rand - 1 : ℚ) ≤ 1 := by linarith
    nlinarith
  have hcd : calculateDelay attempt policy rand = max 0 (jsRound (raw + j)) := by
    simp only [calculateDelay]
  have hfl_le : (jsRound (raw + j) : ℚ) ≤ raw + j + 1/2 := by
    simpa [jsRound] using Int.floor_le (raw + j + 1/2)
  have hfl_ge : raw + j - 1/2 ≤ (jsRound (raw + j) : ℚ) := by
    have := Int.sub_one_lt_floor (raw + j + 1/2)
    simp only [jsRound]
    linarith [this]
  rw [hcd]
  have hcast : ((max 0 (jsRound (raw + j)) : ℤ) : ℚ) = max 0 ((jsRound (raw + j) : ℤ) : ℚ) := by
    push_cast
    rfl
  rw [hcast]
  constructor
  · have hlb : raw + j - 1/2 ≤ max (0 : ℚ) (jsRound (raw + j) : ℚ) :=
      le_trans hfl_ge (le_max_right _ _)
    nlinarith [hlb, hjlo]
  · have hub : max (0 : ℚ) (jsRound (raw + j) : ℚ) ≤ raw + j + 1/2 := by
      apply max_le _ (by linarith [hfl_le])
      nlinarith [hjlo]
    nlinarith [hub, hjhi]

/-- Witness for C3 at the default policy, upcoming attempt 2, jitter draw 1/2
(zero jitter). -/
theorem calculateDelay_bounds_witness :
    effectiveDelay 1 DEFAULT_RETRY_POLICY (1/2) = 0 ∧
    (1 - 1/10 : ℚ) * min (DEFAULT_RETRY_POLICY.baseDelayMs *
        DEFAULT_RETRY_POLICY.backoffMultiplier ^ ((2 : ℤ) - 2))
        DEFAULT_RETRY_POLICY.maxDelayMs - 1/2 ≤
      (calculateDelay 2 DEFAULT_RETRY_POLICY (1/2) : ℚ) ∧
    (calculateDelay 2 DEFAULT_RETRY_POLICY (1/2) : ℚ) ≤
      (1 + 1/10 : ℚ) * min (DEFAULT_RETRY_POLICY.baseDelayMs *
        DEFAULT_RETRY_POLICY.backoffMultiplier ^ ((2 : ℤ) - 2))
        DEFAULT_RETRY_POLICY.maxDelayMs + 1/2 :=
  calculateDelay_bounds DEFAULT_RETRY_POLICY 2 (1/2) (by norm_num)
    (by norm_num [DEFAULT_RETRY_POLICY]) (by norm_num [DEFAULT_RETRY_POLICY])
    (by norm_num [DEFAULT_RETRY_POLICY]) (by norm_num) (by norm_num)

/-! ## Claim C6 — outcome recording outside half-open -/

/-- The code's rational trip test agrees with the claim's wording: at least 4
samples and strictly more failures than half the window, i.e.
`2 · failures > length`. -/
theorem shouldTrip_iff (l : List Outcome) :
    shouldTrip l = true ↔ 4 ≤ l.length ∧ l.length < 2 * failureCount l := by
  unfold shouldTrip CIRCUIT_BREAKER_MIN_SAMPLES
  rw [Bool.and_eq_true, decide_eq_true_iff, decide_eq_true_iff]
  constructor
  · rintro ⟨h4, hgt⟩
    refine ⟨h4, ?_⟩
    have hn : (0 : ℚ) < (l.length : ℚ) := by
      have : 0 < l.length := by omega
      exact_mod_cast this
    rw [lt_div_iff hn] at hgt
    have : (l.length : ℚ) < 2 * (failureCount l : ℚ) := by linarith
    exact_mod_cast this
  · rintro ⟨h4, hlt⟩
    refine ⟨h4, ?_⟩
    have hn : (0 : ℚ) < (l.length : ℚ) := by
      have : 0 < l.length := by omega
      exact_mod_cast this
    rw [lt_div_iff hn]
    have : (l.length : ℚ) < 2 * (failureCount l : ℚ) := by exact_mod_cast hlt
    linarith

/-- Claim C6: for a circuit not in `half-open`, `recordOutcome` appends
`(now, success)` to the window, prunes entries older than 60 s, and — exactly
when the remaining window has at least 4 samples with failure fraction
strictly above 0.5 — transitions to `open` with `opened_at = now`; otherwise
`state`, `opened_at` and `probe_in_flight` are all unchanged. -/
theorem recordOutcome_not_halfOpen (cb : CircuitBreakerState) (now : ℤ) (success : Bool)
    (h : cb.state ≠ .halfOpen) (pruned : List Outcome)
    (hpruned : pruned = (cb.outcomes ++ [Outcome.mk now success]).filter fun o =>
      now - CIRCUIT_BREAKER_WINDOW_MS < o.timestamp) :
    (recordOutcome cb now success).outcomes = pruned ∧
    ((4 ≤ pruned.length ∧ pruned.length < 2 * failureCount pruned) →
      recordOutcome cb now success =
        { outcomes := pruned, state := .opened, openedAt := now,
          probeInFlight := cb.probeInFlight }) ∧
    (¬ (4 ≤ pruned.length ∧ pruned.length < 2 * failureCount pruned) →
      recordOutcome cb now success = { cb with outcomes := pruned }) := by
  have hrw : recordOutcome cb now success =
      if shouldTrip pruned = true then
        { outcomes := pruned, state := .opened, openedAt := now,
          probeInFlight := cb.probeInFlight }
      else { cb with outcomes := pruned } := by
    simp only [recordOutcome]
    rw [if_neg h, ← hpruned]
  by_cases htrip : shouldTrip pruned = true
  · have hcond := (shouldTrip_iff pruned).mp htrip
    rw [hrw, if_pos htrip]
    exact ⟨rfl, fun _ => rfl, fun hc => absurd hcond hc⟩
  · have hcond : ¬ (4 ≤ pruned.length ∧ pruned.length < 2 * failureCount pruned) :=
      fun hc => htrip ((shouldTrip_iff pruned).mpr hc)
    rw [hrw, if_neg htrip]
    exact ⟨rfl, fun hc => absurd hc hcond, fun _ => rfl⟩

/-- Witness for C6: a closed circuit with three recent failures records a
fourth; the window reaches 4 samples, all failures, and the circuit trips to
`open` at `now = 1000`. -/
theorem recordOutcome_not_halfOpen_witness :
    (recordOutcome
      { outcomes := [Outcome.mk 10 false, Outcome.mk 20 false, Outcome.mk 30 false],
        state := .closed, openedAt := 0, probeInFlight := false } 1000 false).outcomes =
      [Outcome.mk 10 false, Outcome.mk 20 false, Outcome.mk 30 false, Outcome.mk 1000 false] ∧
    recordOutcome
      { outcomes := [Outcome.mk 10 false, Outcome.mk 20 false, Outcome.mk 30 false],
        state := .closed, openedAt := 0, probeInFlight := false } 1000 false =
      { outcomes := [Outcome.mk 10 false, Outcome.mk 20 false, Outcome.mk 30 false,
          Outcome.mk 1000 false],
        state := .opened, openedAt := 1000, probeInFlight := false } := by
  have h := recordOutcome_not_halfOpen
    { outcomes := [Outcome.mk 10 false, Outcome.mk 20 false, Outcome.mk 30 false],
      state := .closed, openedAt := 0, probeInFlight := false } 1000 false (by decide)
    [Outcome.mk 10 false, Outcome.mk 20 false, Outcome.mk 30 false, Outcome.mk 1000 false]
    (by decide)
  exact ⟨h.1, h.2.1 (by decide)⟩

/-! ## Claim C5 — half-open single-probe protocol -/

/-- A fold of `recordOutcomeMap` over ids not containing `s` leaves the
circuit of `s` untouched. -/
theorem recordFold_of_not_mem (l : List String) (now : ℤ) (b : Bool) :
    ∀ (m : CircuitMap) (s : String), s ∉ l →
      (l.foldl (fun acc subId => recordOutcomeMap acc subId now b) m) s = m s := by
  induction l with
  | nil => intro m s _; rfl
  | cons a t ih =>
    intro m s hs
    have hne : s ≠ a := fun h => hs (h ▸ List.mem_cons_self a t)
    have := ih (recordOutcomeMap m a now b) s (fun h => hs (List.mem_cons_of_mem a h))
    rw [List.foldl_cons, this, recordOutcomeMap, if_neg hne]

/-- A fold of `recordOutcomeMap` over duplicate-free ids containing `s`
records exactly one outcome on the circuit of `s`. -/
theorem recordFold_of_mem (l : List String) (now : ℤ) (b : Bool) :
    ∀ (m : CircuitMap) (s : String), l.Nodup → s ∈ l →
      (l.foldl (fun acc subId => recordOutcomeMap acc subId now b) m) s =
        recordOutcome (m s) now b := by
  induction l with
  | nil => intro m s _ hs; exact absurd hs (List.not_mem_nil s)
  | cons a t ih =>
    intro m s hnd hs
    rw [List.foldl_cons]
    rcases List.mem_cons.mp hs with h | h
    · subst h
      have hnotin : s ∉ t := (List.nodup_cons.mp hnd).1
      rw [recordFold_of_not_mem t now b _ s hnotin, recordOutcomeMap, if_pos rfl]
    · have hne : s ≠ a := by
        intro hEq
        subst hEq
        exact (List.nodup_cons.mp hnd).1 h
      rw [ih (recordOutcomeMap m a now b) s (List.nodup_cons.mp hnd).2 h,
        recordOutcomeMap, if_neg hne]

/-- The leak-clearance fold never touches the circuit of an executed
subscription. -/
theorem leakFold_of_executed (l executed : List String) :
    ∀ (m : CircuitMap) (s : String), s ∈ executed →
      (l.foldl (fun acc subId => leakClear acc executed subId) m) s = m s := by
  induction l with
  | nil => intro m s _; rfl
  | cons a t ih =>
    intro m s hs
    rw [List.foldl_cons, ih (leakClear m executed a) s hs]
    by_cases hax : a ∈ executed
    · rw [leakClear, if_pos hax]
    · rw [leakClear, if_neg hax]
      by_cases hsa : s = a
      · subst hsa; exact absurd hs hax
      · exact if_neg hsa

/-- The leak-clearance fold never touches the circuit of an id outside the
folded list. -/
theorem leakFold_of_not_mem (l executed : List String) :
    ∀ (m : CircuitMap) (s : String), s ∉ l →
      (l.foldl (fun acc subId => leakClear acc executed subId) m) s = m s := by
  induction l with
  | nil => intro m s _; rfl
  | cons a t ih =>
    intro m s hs
    have hne : s ≠ a := fun h => hs (h ▸ List.mem_cons_self a t)
    rw [List.foldl_cons, ih (leakClear m executed a) s (fun h => hs (List.mem_cons_of_mem a h))]
    by_cases hax : a ∈ executed
    · rw [leakClear, if_pos hax]
    · rw [leakClear, if_neg hax]; exact if_neg hne

/-- The leak-clearance fold over duplicate-free ids containing `s`, with `s`
not executed, applies the single clear step to the circuit of `s`. -/
theorem leakFold_of_not_executed (l executed : List String) :
    ∀ (m : CircuitMap) (s : String), l.Nodup → s ∈ l → s ∉ executed →
      (l.foldl (fun acc subId => leakClear acc executed subId) m) s =
        (if (m s).state = .halfOpen ∧ (m s).probeInFlight then
          { m s with probeInFlight := false }
        else m s) := by
  induction l with
  | nil => intro m s _ hs _; exact absurd hs (List.not_mem_nil s)
  | cons a t ih =>
    intro m s hnd hs hx
    rw [List.foldl_cons]
    rcases List.mem_cons.mp hs with h | h
    · subst h
      have hnotin : s ∉ t := (List.nodup_cons.mp hnd).1
      rw [leakFold_of_not_mem t executed (leakClear m executed s) s hnotin]
      rw [leakClear, if_neg hx, if_pos rfl]
    · have hne : s ≠ a := by
        intro hEq
        subst hEq
        exact (List.nodup_cons.mp hnd).1 h
      have hmv : (leakClear m executed a) s = m s := by
        by_cases hax : a ∈ executed
        · rw [leakClear, if_pos hax]
        · rw [leakClear, if_neg hax]; exact if_neg hne
      rw [ih (leakClear m executed a) s (List.nodup_cons.mp hnd).2 h hx, hmv]

/-- Claim C5: for a subscription whose circuit is `half-open`:
(1) while `probe_in_flight` is set, every admission check denies it and
changes nothing;
(2) an admission sets `probe_in_flight` at admission time;
(3) recording any outcome in `half-open` clears `probe_in_flight`;
(4) after a failed attempt's bookkeeping, a half-open circuit with a probe in
flight has been cleared by exactly one mechanism: the recorded outcome when
its handler ran (it succeeded earlier, or it is the failed one — the
leak-clearance pass leaves it untouched), and the leak-clearance pass when its
handler never ran (the outcome folds leave it untouched and the final state
differs from the original only in the cleared flag); in every case the flag
ends cleared;
(5) after a successful attempt every matching half-open circuit was cleared
by its recorded outcome alone. -/
theorem halfOpen_probe_protocol :
    (∀ (cb : CircuitBreakerState) (now : ℤ), cb.state = .halfOpen → cb.probeInFlight = true →
      isCircuitOpenCB cb now = (true, cb)) ∧
    (∀ (cb : CircuitBreakerState) (now : ℤ), cb.state = .halfOpen → cb.probeInFlight = false →
      isCircuitOpenCB cb now = (false, { cb with probeInFlight := true })) ∧
    (∀ (cb : CircuitBreakerState) (now : ℤ) (b : Bool), cb.state = .halfOpen →
      (recordOutcome cb now b).probeInFlight = false) ∧
    (∀ (m : CircuitMap) (now : ℤ) (matching succeeded : List String) (failed s : String),
      matching.Nodup → succeeded.Nodup → failed ∉ succeeded →
      s ∈ matching → (m s).state = .halfOpen → (m s).probeInFlight = true →
      (s ∈ succeeded →
        afterFailedAttempt m now matching succeeded failed s = recordOutcome (m s) now true) ∧
      (s = failed →
        afterFailedAttempt m now matching succeeded failed s = recordOutcome (m s) now false) ∧
      (s ∉ succeeded → s ≠ failed →
        afterFailedAttempt m now matching succeeded failed s =
          { m s with probeInFlight := false }) ∧
      (afterFailedAttempt m now matching succeeded failed s).probeInFlight = false) ∧
    (∀ (m : CircuitMap) (now : ℤ) (matching : List String) (s : String),
      matching.Nodup → s ∈ matching → (m s).state = .halfOpen →
      afterSuccessAttempt m now matching s = recordOutcome (m s) now true ∧
      (afterSuccessAttempt m now matching s).probeInFlight = false) := by
  have hrec : ∀ (cb : CircuitBreakerState) (now : ℤ) (b : Bool), cb.state = .halfOpen →
      (recordOutcome cb now b).probeInFlight = false := by
    intro cb now b h
    cases b <;> simp [recordOutcome, h]
  refine ⟨?_, ?_, hrec, ?_, ?_⟩
  · intro cb now h1 h2
    simp [isCircuitOpenCB, h1, h2]
  · intro cb now h1 h2
    simp [isCircuitOpenCB, h1, h2]
  · intro m now matching succeeded failed s hndM hndS hfs hsM hho hpif
    have hA : s ∈ succeeded →
        afterFailedAttempt m now matching succeeded failed s = recordOutcome (m s) now true := by
      intro hss
      have hne : s ≠ failed := fun h => hfs (h ▸ hss)
      have hm1 : (succeeded.foldl (fun acc subId => recordOutcomeMap acc subId now true) m) s =
          recordOutcome (m s) now true := recordFold_of_mem succeeded now true m s hndS hss
      have hm2 : (recordOutcomeMap
          (succeeded.foldl (fun acc subId => recordOutcomeMap acc subId now true) m)
          failed now false) s = recordOutcome (m s) now true := by
        rw [recordOutcomeMap, if_neg hne, hm1]
      unfold afterFailedAttempt
      rw [leakFold_of_executed matching (succeeded ++ [failed]) _ s
        (List.mem_append_left _ hss), hm2]
    have hB : s = failed →
        afterFailedAttempt m now matching succeeded failed s = recordOutcome (m s) now false := by
      intro hsf
      subst hsf
      have hm1 : (succeeded.foldl (fun acc subId => recordOutcomeMap acc subId now true) m) s =
          m s := recordFold_of_not_mem succeeded now true m s hfs
      have hm2 : (recordOutcomeMap
          (succeeded.foldl (fun acc subId => recordOutcomeMap acc subId now true) m)
          s now false) s = recordOutcome (m s) now false := by
        rw [recordOutcomeMap, if_pos rfl, hm1]
      unfold afterFailedAttempt
      rw [leakFold_of_executed matching (succeeded ++ [s]) _ s
        (List.mem_append_right _ (List.mem_singleton.mpr rfl)), hm2]
    have hC : s ∉ succeeded → s ≠ failed →
        afterFailedAttempt m now matching succeeded failed s =
          { m s with probeInFlight := false } := by
      intro hns hnf
      have hm1 : (succeeded.foldl (fun acc subId => recordOutcomeMap acc subId now true) m) s =
          m s := recordFold_of_not_mem succeeded now true m s hns
      have hm2 : (recordOutcomeMap
          (succeeded.foldl (fun acc subId => recordOutcomeMap acc subId now true) m)
          failed now false) s = m s := by
        rw [recordOutcomeMap, if_neg hnf, hm1]
      have hnx : s ∉ succeeded ++ [failed] := by
        intro hx
        rcases List.mem_append.mp hx with h | h
        · exact hns h
        · exact hnf (List.mem_singleton.mp h)
      unfold afterFailedAttempt
      rw [leakFold_of_not_executed matching (succeeded ++ [failed]) _ s hndM hsM hnx, hm2,
        if_pos ⟨hho, hpif⟩]
    refine ⟨hA, hB, hC, ?_⟩
    by_cases hss : s ∈ succeeded
    · rw [hA hss]; exact hrec _ now true hho
    · by_cases hsf : s = failed
      · rw [hB hsf]; exact hrec _ now false hho
      · rw [hC hss hsf]
  · intro m now matching s hnd hsM hho
    have h1 : afterSuccessAttempt m now matching s = recordOutcome (m s) now true :=
      recordFold_of_mem matching now true m s hnd hsM
    exact ⟨h1, by rw [h1]; exact hrec _ now true hho⟩

/-- Witness for C5: a half-open circuit with a probe in flight is denied
admission, and after a failed attempt (`succeeded = ["a"]`, `failed = "b"`)
the never-executed matching subscription `"c"` has its leaked probe flag
cleared with everything else intact. -/
theorem halfOpen_probe_protocol_witness :
    isCircuitOpenCB
      { outcomes := [], state := .halfOpen, openedAt := 0, probeInFlight := true } 5 =
      (true, { outcomes := [], state := .halfOpen, openedAt := 0, probeInFlight := true }) ∧
    afterFailedAttempt
      (fun _ => { outcomes := [], state := .halfOpen, openedAt := 0, probeInFlight := true })
      5 ["a", "b", "c"] ["a"] "b" "c" =
      { outcomes := [], state := .halfOpen, openedAt := 0, probeInFlight := false } ∧
    (afterFailedAttempt
      (fun _ => { outcomes := [], state := .halfOpen, openedAt := 0, probeInFlight := true })
      5 ["a", "b", "c"] ["a"] "b" "c").probeInFlight = false := by
  refine ⟨halfOpen_probe_protocol.1
    { outcomes := [], state := .halfOpen, openedAt := 0, probeInFlight := true } 5 rfl rfl,
    ?_, ?_⟩
  · exact (halfOpen_probe_protocol.2.2.2.1
      (fun _ => { outcomes := [], state := .halfOpen, openedAt := 0, probeInFlight := true })
      5 ["a", "b", "c"] ["a"] "b" "c" (by decide) (by decide) (by decide) (by decide)
      rfl rfl).2.2.1 (by decide) (by decide)
  · exact (halfOpen_probe_protocol.2.2.2.1
      (fun _ => { outcomes := [], state := .halfOpen, openedAt := 0, probeInFlight := true })
      5 ["a", "b", "c"] ["a"] "b" "c" (by decide) (by decide) (by decide) (by decide)
      rfl rfl).2.2.2

/-! ## Claim C2 — `retry_count` vs `last_error` length -/

/-- Every `updateEventRetry` write the attempt loop emits carries a retry
count equal to the length of the error history it writes (the loop invariant
is `attempt = errorHistory.length + 1`). -/
theorem dispatchLoop_setRetry_length (results : List AttemptResult) :
    ∀ (attempt : ℕ) (eh : List String) (n : ℕ) (errs : List String),
      attempt = eh.length + 1 →
      StoreWrite.setRetry n errs ∈ dispatchLoop results attempt eh →
      n = errs.length := by
  induction results with
  | nil =>
    intro attempt eh n errs _ hmem
    simp [dispatchLoop] at hmem
  | cons r rest ih =>
    intro attempt eh n errs hinv hmem
    cases r with
    | allSucceeded =>
      simp only [dispatchLoop] at hmem
      rcases List.mem_append.mp hmem with h | h
      · by_cases heh : eh.length > 0
        · rw [if_pos heh, List.mem_singleton] at h
          injection h with hn he
          subst hn
          subst he
          rfl
        · rw [if_neg heh] at h
          exact absurd h (List.not_mem_nil _)
      · rw [List.mem_singleton] at h
        exact absurd h (by simp)
    | failedAt err =>
      simp only [dispatchLoop, List.mem_cons] at hmem
      rcases hmem with h | h
      · injection h with hn he
        subst hn
        subst he
        simp [hinv]
      · exact ih (attempt + 1) (eh ++ [err]) n errs (by simp [hinv]) h

/-- Unfolding one store write of an `applyWrites` chain. -/
theorem applyWrites_cons (row : EventRow) (now : ℤ) (w : StoreWrite) (ws : List StoreWrite) :
    applyWrites row now (w :: ws) = applyWrites (applyWrite row now w) now ws := rfl

/-- Row-level invariant of the attempt loop: starting from a row whose
`retry_count` equals the length of the accumulated history (and whose
`last_error` holds exactly that history, or is `NULL` with an empty history),
the row left behind by the loop's writes again satisfies
`retry_count = length(last_error)` (with `retry_count = 0` when `last_error`
is `NULL`). -/
theorem dispatchLoop_row_invariant (results : List AttemptResult) :
    ∀ (attempt : ℕ) (eh : List String) (row : EventRow) (now : ℤ),
      attempt = eh.length + 1 →
      row.retryCount = eh.length →
      (row.lastError = none ∧ eh = [] ∨ row.lastError = some eh) →
      (∀ errs, (applyWrites row now (dispatchLoop results attempt eh)).lastError = some errs →
        (applyWrites row now (dispatchLoop results attempt eh)).retryCount = errs.length) ∧
      ((applyWrites row now (dispatchLoop results attempt eh)).lastError = none →
        (applyWrites row now (dispatchLoop results attempt eh)).retryCount = 0) := by
  induction results with
  | nil =>
    intro attempt eh row now _ hrc _
    refine ⟨fun errs hl => ?_, fun hl => ?_⟩
    · simp only [dispatchLoop, applyWrites, List.foldl_cons, List.foldl_nil,
        applyWrite] at hl ⊢
      injection hl with he
      subst he
      exact hrc
    · simp only [dispatchLoop, applyWrites, List.foldl_cons, List.foldl_nil,
        applyWrite] at hl
      exact absurd hl (by simp)
  | cons r rest ih =>
    intro attempt eh row now hinv hrc hle
    cases r with
    | allSucceeded =>
      by_cases heh : eh.length > 0
      · simp only [dispatchLoop, if_pos heh, applyWrites, List.cons_append,
          List.nil_append, List.foldl_cons, List.foldl_nil, applyWrite]
        refine ⟨fun errs hl => ?_, fun hl => absurd hl (by simp)⟩
        injection hl with he
        subst he
        rfl
      · have heh0 : eh = [] := List.length_eq_zero.mp (by omega)
        subst heh0
        simp only [dispatchLoop, if_neg heh, applyWrites, List.nil_append,
          List.foldl_cons, List.foldl_nil, applyWrite]
        refine ⟨fun errs hl => ?_, fun _ => hrc⟩
        rcases hle with ⟨hn, _⟩ | hs
        · rw [hn] at hl
          exact absurd hl (by simp)
        · rw [hs] at hl
          injection hl with he
          subst he
          exact hrc
    | failedAt err =>
      have hloop : dispatchLoop (AttemptResult.failedAt err :: rest) attempt eh =
          StoreWrite.setRetry attempt (eh ++ [err]) ::
            dispatchLoop rest (attempt + 1) (eh ++ [err]) := rfl
      rw [hloop, applyWrites_cons]
      exact ih (attempt + 1) (eh ++ [err]) (applyWrite row now
        (StoreWrite.setRetry attempt (eh ++ [err]))) now (by simp [hinv])
        (by simp [applyWrite, hinv]) (Or.inr (by simp [applyWrite]))

/-- Claim C2 (amended): the dispatcher maintains
`retry_count = length(last_error)` — every `updateEventRetry` write of the
attempt loop carries a count equal to the written history's length, and a
fresh `pending` row (`retry_count = 0`, `last_error = NULL`) driven through
`dispatch` always ends with `retry_count = length(last_error)` (`0` when
`NULL`); `publish` inserts rows with `retry_count = 0` and `last_error =
NULL`, and a DLQ-retry resets to the same.  Crash recovery via `start()` is
the exception the counterexample exhibits: it increments `retry_count` while
leaving the stored history unchanged. -/
theorem dispatch_retryCount_invariant :
    (∀ (anyAdmitted : Bool) (results : List AttemptResult) (n : ℕ) (errs : List String),
      StoreWrite.setRetry n errs ∈ dispatchWrites anyAdmitted results → n = errs.length) ∧
    (∀ (row : EventRow) (now : ℤ) (anyAdmitted : Bool) (results : List AttemptResult),
      row.retryCount = 0 → row.lastError = none →
      (∀ errs,
        (applyWrites row now (dispatchWrites anyAdmitted results)).lastError = some errs →
        (applyWrites row now (dispatchWrites anyAdmitted results)).retryCount = errs.length) ∧
      ((applyWrites row now (dispatchWrites anyAdmitted results)).lastError = none →
        (applyWrites row now (dispatchWrites anyAdmitted results)).retryCount = 0)) ∧
    (∀ (st : StoreState) (id et : String) (payload : JsValue) (md : Option String) (now : ℤ)
      (st2 : StoreState), insertEvent st id et payload md now = .ok st2 →
      ∀ r ∈ st2.events, r ∈ st.events ∨
        (r.status = .pending ∧ r.retryCount = 0 ∧ r.lastError = none)) ∧
    (∀ (table : List EventRow) (id : String) (now : ℤ) (r : EventRow),
      r ∈ resetDlqEvent table id now → r.id = id →
      r.retryCount = 0 ∧ r.lastError = none) := by
  refine ⟨?_, ?_, ?_, ?_⟩
  · intro anyAdmitted results n errs hmem
    cases anyAdmitted with
    | false =>
      rw [show dispatchWrites false results = [StoreWrite.setStatus .done] from rfl,
        List.mem_singleton] at hmem
      exact absurd hmem (by simp)
    | true =>
      rw [show dispatchWrites true results =
          StoreWrite.setStatus .processing :: dispatchLoop results 1 [] from rfl,
        List.mem_cons] at hmem
      rcases hmem with h | h
      · exact absurd h (by simp)
      · exact dispatchLoop_setRetry_length results 1 [] n errs rfl h
  · intro row now anyAdmitted results hrc hle
    cases anyAdmitted with
    | false =>
      rw [show dispatchWrites false results = [StoreWrite.setStatus .done] from rfl]
      simp only [applyWrites, List.foldl_cons, List.foldl_nil, applyWrite]
      refine ⟨fun errs hl => ?_, fun _ => hrc⟩
      rw [show ({ row with status := Status.done, updatedAt := now } : EventRow).lastError =
        row.lastError from rfl, hle] at hl
      exact absurd hl (by simp)
    | true =>
      rw [show dispatchWrites true results =
          StoreWrite.setStatus .processing :: dispatchLoop results 1 [] from rfl,
        applyWrites_cons]
      exact dispatchLoop_row_invariant results 1 []
        (applyWrite row now (StoreWrite.setStatus .processing)) now rfl
        (by simp [applyWrite, hrc]) (Or.inl ⟨by simp [applyWrite, hle], rfl⟩)
  · intro st id et payload md now st2 hok r hr
    simp only [insertEvent] at hok
    rcases hpj : payloadJson payload with _ | pj
    · rw [hpj] at hok
      exact absurd hok (by simp)
    · rw [hpj] at hok
      injection hok with hst
      subst hst
      simp only at hr
      rcases List.mem_append.mp hr with h | h
      · exact Or.inl h
      · rw [List.mem_singleton] at h
        subst h
        exact Or.inr ⟨rfl, rfl, rfl⟩
  · intro table id now r hr hid
    simp only [resetDlqEvent, List.mem_map] at hr
    rcases hr with ⟨orig, _, heq⟩
    by_cases ho : orig.id = id
    · rw [if_pos ho] at heq
      subst heq
      exact ⟨rfl, rfl⟩
    · rw [if_neg ho] at heq
      subst heq
      exact absurd hid ho

/-- Witness for C2 at concrete inputs: a fresh pending row driven through a
dispatch whose two attempts fail lands with `retry_count = 2` and a 2-entry
error history. -/
theorem dispatch_retryCount_invariant_witness :
    (applyWrites
      { id := "e", type := "t", payload := "p", status := .pending, retryCount := 0,
        lastError := none, metadata := none, createdAt := 0, updatedAt := 0, dlqAt := none }
      7 (dispatchWrites true [.failedAt "boom-1", .failedAt "boom-2"])).lastError =
      some ["boom-1", "boom-2"] ∧
    (applyWrites
      { id := "e", type := "t", payload := "p", status := .pending, retryCount := 0,
        lastError := none, metadata := none, createdAt := 0, updatedAt := 0, dlqAt := none }
      7 (dispatchWrites true [.failedAt "boom-1", .failedAt "boom-2"])).retryCount = 2 := by
  have h := (dispatch_retryCount_invariant.2.1
    { id := "e", type := "t", payload := "p", status := .pending, retryCount := 0,
      lastError := none, metadata := none, createdAt := 0, updatedAt := 0, dlqAt := none }
    7 true [.failedAt "boom-1", .failedAt "boom-2"] rfl rfl).1 ["boom-1", "boom-2"] (by decide)
  exact ⟨by decide, by simpa using h⟩

/-- Claim C2 is false as stated for crash recovery: `EventBus.start` on a
`processing` row with `retry_count = 2` and `last_error = ["a","b"]` writes
`retry_count = 3` while leaving the stored error array at length 2
(`src/bus/index.ts:153-155` increments the count but writes
`row.last_error ?? ''` back unchanged). -/
theorem start_recovery_retryCount_counterexample :
    (applyWrites
      { id := "X", type := "t", payload := "p", status := .processing, retryCount := 2,
        lastError := some ["a", "b"], metadata := none, createdAt := 0, updatedAt := 0,
        dlqAt := none } 9
      (startRecoveryWrites
        { id := "X", type := "t", payload := "p", status := .processing, retryCount := 2,
          lastError := some ["a", "b"], metadata := none, createdAt := 0, updatedAt := 0,
          dlqAt := none })).retryCount = 3 ∧
    (applyWrites
      { id := "X", type := "t", payload := "p", status := .processing, retryCount := 2,
        lastError := some ["a", "b"], metadata := none, createdAt := 0, updatedAt := 0,
        dlqAt := none } 9
      (startRecoveryWrites
        { id := "X", type := "t", payload := "p", status := .processing, retryCount := 2,
          lastError := some ["a", "b"], metadata := none, createdAt := 0, updatedAt := 0,
          dlqAt := none })).lastError = some ["a", "b"] ∧
    (["a", "b"] : List String).length = 2 ∧ (3 : ℕ) ≠ 2 := by decide

/-! ## Claim C1 — status transition DAG -/

/-- The attempt loop, entered with the event in `processing`, only ever moves
the status along `processing → done` or `processing → dlq`. -/
theorem dispatchLoop_chain (results : List AttemptResult) :
    ∀ (attempt : ℕ) (eh : List String),
      chainOk actualEdge .processing (statusTrace (dispatchLoop results attempt eh)) = true := by
  induction results with
  | nil =>
    intro attempt eh
    simp [dispatchLoop, statusTrace, statusOfWrite, chainOk, actualEdge, claimedEdge]
  | cons r rest ih =>
    intro attempt eh
    cases r with
    | allSucceeded =>
      by_cases heh : eh.length > 0 <;>
        simp [dispatchLoop, heh, statusTrace, statusOfWrite, chainOk, actualEdge, claimedEdge]
    | failedAt err =>
      simpa [dispatchLoop, statusTrace, statusOfWrite] using ih (attempt + 1) (eh ++ [err])

/-- Claim C1 (amended): the durable status moves only along
`pending → processing → done`, `processing → dlq`, `dlq → pending`
(administrative retry), **plus** `pending → done` (an event with no admitted
matching subscription is completed directly, without passing through
`processing`) and `processing → pending` (crash-recovery reset): every
dispatch write-trace from `pending` follows these edges, `start`'s recovery
writes take a `processing` event to `pending`, and the DLQ inspector's retry
resets exactly rows whose status is `dlq` to `pending`. -/
theorem status_transition_dag :
    (∀ (anyAdmitted : Bool) (results : List AttemptResult),
      chainOk actualEdge .pending (statusTrace (dispatchWrites anyAdmitted results)) = true) ∧
    (∀ row : EventRow, statusTrace (startRecoveryWrites row) = [Status.pending] ∧
      actualEdge .processing .pending = true) ∧
    (∀ (table : List EventRow) (id : String) (now : ℤ) (table2 : List EventRow),
      (table.map EventRow.id).Nodup → dlqRetry table id now = .ok table2 →
      table2.length = table.length ∧
      ∀ (i : ℕ) (h1 : i < table.length) (h2 : i < table2.length),
        (table2.get ⟨i, h2⟩).status ≠ (table.get ⟨i, h1⟩).status →
        (table.get ⟨i, h1⟩).status = .dlq ∧ (table2.get ⟨i, h2⟩).status = .pending) := by
  refine ⟨?_, ?_, ?_⟩
  · intro anyAdmitted results
    cases anyAdmitted with
    | false => rfl
    | true =>
      rw [show dispatchWrites true results =
        StoreWrite.setStatus .processing :: dispatchLoop results 1 [] from rfl]
      simpa [statusTrace, statusOfWrite, chainOk, actualEdge, claimedEdge] using
        dispatchLoop_chain results 1 []
  · intro row
    exact ⟨rfl, rfl⟩
  · intro table id now table2 hnd hok
    simp only [dlqRetry] at hok
    rcases hf : table.find? (fun row => row.id = id) with _ | row
    · rw [hf] at hok
      exact absurd hok (by simp)
    · rw [hf] at hok
      change (if row.status = Status.dlq then Except.ok (resetDlqEvent table id now)
        else Except.error BusError.notInDlq) = Except.ok table2 at hok
      by_cases hst : row.status = Status.dlq
      · rw [if_pos hst] at hok
        injection hok with htab
        subst htab
        have hrowmem : row ∈ table := List.mem_of_find?_eq_some hf
        have hrowid : row.id = id := by
          have := List.find?_some hf
          exact of_decide_eq_true this
        refine ⟨by simp [resetDlqEvent], fun i h1 h2 hch => ?_⟩
        simp only [resetDlqEvent, List.get_eq_getElem, List.getElem_map] at hch ⊢
        by_cases hid : table[i].id = id
        · have hEq : table[i] = row := by
            have hmem : table[i] ∈ table := List.getElem_mem h1
            exact List.inj_on_of_nodup_map hnd hmem hrowmem (by rw [hid, hrowid])
          rw [if_pos hid]
          exact ⟨by rw [hEq, hst], rfl⟩
        · rw [if_neg hid] at hch
          exact absurd rfl hch
      · rw [if_neg hst] at hok
        exact absurd hok (by simp)

/-- Claim C1 is false as stated: an event that matches no admitted
subscription is transitioned `pending → done` **directly** — its write trace
is `[done]`, never passing through `processing` — and `pending → done` is not
an edge of the claimed DAG; likewise crash recovery resets
`processing → pending`, also outside the claimed DAG. -/
theorem status_transition_dag_counterexample :
    statusTrace (dispatchWrites false []) = [Status.done] ∧
    Status.processing ∉ statusTrace (dispatchWrites false []) ∧
    claimedEdge .pending .done = false ∧
    statusTrace (startRecoveryWrites
      { id := "X", type := "t", payload := "p", status := .processing, retryCount := 2,
        lastError := none, metadata := none, createdAt := 0, updatedAt := 0,
        dlqAt := none }) = [Status.pending] ∧
    claimedEdge .processing .pending = false := by decide

/-- A one-row DLQ table used by the C1 witness. -/
def dlqWitnessRow : EventRow :=
  { id := "X", type := "t", payload := "p", status := .dlq, retryCount := 4,
    lastError := some ["a"], metadata := none, createdAt := 0, updatedAt := 0,
    dlqAt := some 0 }

/-- Witness for C1: a two-attempt dispatch trace follows the amended DAG, and
a DLQ retry on a one-row DLQ table keeps the length (and resets to pending). -/
theorem status_transition_dag_witness :
    chainOk actualEdge .pending
      (statusTrace (dispatchWrites true [.failedAt "boom", .allSucceeded])) = true ∧
    (resetDlqEvent [dlqWitnessRow] "X" 9).length = [dlqWitnessRow].length :=
  ⟨status_transition_dag.1 true [.failedAt "boom", .allSucceeded],
   (status_transition_dag.2.2 [dlqWitnessRow] "X" 9 (resetDlqEvent [dlqWitnessRow] "X" 9)
      (by decide) (by rfl)).1⟩

/-! ## Claim C8 — shutdown rejects publish and subscribe -/

/-- Claim C8: once `shutdown()` has run, the drain flag is set, and every
subsequent `publish` and every subsequent `subscribe` fails with the
`ShuttingDown` error and returns the bus state **unchanged** — no event row
is persisted and no handler is registered (and the flag stays set, so this
holds for every later call as well). -/
theorem shutdown_rejects_publish_subscribe (bus : BusState) :
    (shutdownModel bus).shuttingDown = true ∧
    (∀ (id eventType : String) (payload : JsValue) (md : Option String) (now : ℤ),
      publishPersist (shutdownModel bus) id eventType payload md now =
        (.error .shuttingDown, shutdownModel bus)) ∧
    (∀ (id : String) (eventType : Option String) (tm : Option ℚ) (r : Option RetryOverride)
      (now : ℤ),
      subscribeModel (shutdownModel bus) id eventType tm r now =
        (.error .shuttingDown, shutdownModel bus)) := by
  refine ⟨rfl, fun id eventType payload md now => ?_, fun id eventType tm r now => ?_⟩
  · rw [publishPersist, if_pos (show (shutdownModel bus).shuttingDown = true from rfl)]
  · rw [subscribeModel, if_pos (show (shutdownModel bus).shuttingDown = true from rfl)]

/-! ## Claim C9 — invalid payload never persists -/

/-- Claim C9: when the payload is not JSON-serializable (`JSON.stringify`
throws, `payloadJson = none`), `publish` fails with the invalid-payload error
and persists nothing: the returned bus state — events table included — is
exactly the input state. -/
theorem publish_invalid_payload (bus : BusState) (id eventType : String) (payload : JsValue)
    (md : Option String) (now : ℤ) (hflag : bus.shuttingDown = false)
    (hp : payloadJson payload = none) :
    publishPersist bus id eventType payload md now = (.error .invalidPayload, bus) ∧
    (publishPersist bus id eventType payload md now).2.store.events = bus.store.events := by
  have h : publishPersist bus id eventType payload md now = (.error .invalidPayload, bus) := by
    rw [publishPersist, if_neg (by rw [hflag]; exact Bool.false_ne_true), insertEvent, hp]
  exact ⟨h, by rw [h]⟩

/-- Witness for C9: a BigInt payload on an empty, open bus. -/
theorem publish_invalid_payload_witness :
    publishPersist
      { store := { events := [], subscriptionRows := [], closed := false }, handlers := [],
        shuttingDown := false } "e1" "order.created" (.bigintVal 7) none 3 =
      (.error .invalidPayload,
        { store := { events := [], subscriptionRows := [], closed := false }, handlers := [],
          shuttingDown := false }) ∧
    (publishPersist
      { store := { events := [], subscriptionRows := [], closed := false }, handlers := [],
        shuttingDown := false } "e1" "order.created" (.bigintVal 7) none 3).2.store.events =
      ([] : List EventRow) :=
  publish_invalid_payload
    { store := { events := [], subscriptionRows := [], closed := false }, handlers := [],
      shuttingDown := false } "e1" "order.created" (.bigintVal 7) none 3 rfl rfl
